import Mathlib

/-!
Shallow embedding of the Snapdragon VISLAM manager
(`src/src/vislam/SnapdragonVislamManager.hpp`).

The repository ships only the class header: member declarations, member
variables with their initialisers, and the doc comments.  The method bodies
live in a translation unit that is not part of the repository's files, so
each operation below is modelled from the specification's description of it
(each such definition says so in its doc comment).  What the header itself
fixes — the member variables, the initialiser `last_imu_timestamp_ns_ = 0`,
the `std::queue<CameraImage>` buffer, the signatures and the documented
return convention — is taken from the header directly.

C++ `int64_t` timestamps are modelled as `Int`; the float fields of
`InitParams` are modelled as `Int` (a fixed-point reading), which is enough
for the sign conditions the specification's validation mentions.
-/

namespace Snapdragon

/-- One IMU reading delivered to `ImuCallback`: angular velocity,
linear acceleration (three components each) and a nanosecond timestamp,
mirroring the `sensor_msgs::Imu` fields the callback consumes. -/
structure ImuSample where
  angular_velocity : Int × Int × Int
  linear_acceleration : Int × Int × Int
  timestamp_ns : Int
deriving DecidableEq

/-- The state of the inertial-ingest path: the member variable
`last_imu_timestamp_ns_` (header line 191, initialised to 0), a
rejected-sample counter, and the list of samples forwarded to the
estimator's inertial-ingest entry point, in forwarding order. -/
structure ImuState where
  last_imu_timestamp_ns_ : Int
  rejected : Nat
  forwarded : List ImuSample
deriving DecidableEq

/-- The inertial state at construction: `last_imu_timestamp_ns_ = 0` is the
header's default member initialiser; nothing has been forwarded or
rejected. -/
def initImuState : ImuState :=
  { last_imu_timestamp_ns_ := 0, rejected := 0, forwarded := [] }

/-- Modelled from the spec: `ImuCallback` (the Inertial Sample Ingestor)
"Rejects (drops, counts, logs) any sample with timestamp ≤ last accepted.
On acceptance, forwards the sample synchronously to the estimator's
inertial-ingest entry point and updates the last-accepted timestamp." -/
def ImuCallback (st : ImuState) (s : ImuSample) : ImuState :=
  if st.last_imu_timestamp_ns_ < s.timestamp_ns then
    { last_imu_timestamp_ns_ := s.timestamp_ns
      rejected := st.rejected
      forwarded := st.forwarded ++ [s] }
  else
    { st with rejected := st.rejected + 1 }

/-- Delivering a sequence of inertial samples to `ImuCallback`, in order. -/
def processImu (st : ImuState) (fs : List ImuSample) : ImuState :=
  fs.foldl ImuCallback st

/-- One captured camera frame as the header declares it (frame identifier,
buffer size, capture timestamp); the raw `uint8_t*` pixel pointer is not
modelled. -/
structure CameraImage where
  frame_id : Int
  buffer_size : Nat
  frame_ts_ns : Int
deriving DecidableEq

/-- The Camera Frame Buffer: the header's `std::queue<CameraImage>
camera_buffer_` (front of the list = oldest frame) together with the
dropped-frame counter the specification requires. -/
structure FrameBuffer where
  frames : List CameraImage
  dropped : Nat
deriving DecidableEq

/-- The empty Camera Frame Buffer. -/
def emptyFrameBuffer : FrameBuffer :=
  { frames := [], dropped := 0 }

/-- Modelled from the spec: `Push(frame)` on the bounded Camera Frame
Buffer — "if the queue is at capacity, the oldest unconsumed frame is
dropped (with a drop counter incremented) rather than blocking the
producer"; otherwise the frame is appended in FIFO order. -/
def FrameBuffer.Push (capacity : Nat) (b : FrameBuffer) (f : CameraImage) :
    FrameBuffer :=
  if capacity ≤ b.frames.length then
    { frames := b.frames.tail ++ [f], dropped := b.dropped + 1 }
  else
    { frames := b.frames ++ [f], dropped := b.dropped }

/-- A whole sequence of `Push` calls, in order. -/
def pushAll (capacity : Nat) (b : FrameBuffer) (fs : List CameraImage) :
    FrameBuffer :=
  fs.foldl (FrameBuffer.Push capacity) b

/-- One `ImuCallback` step preserves the inertial-ingest invariant: the
forwarded timestamps are strictly increasing and all bounded by the
last-accepted timestamp. -/
lemma ImuCallback_inv (st : ImuState) (s : ImuSample)
    (h1 : (st.forwarded.map ImuSample.timestamp_ns).Pairwise (· < ·))
    (h2 : ∀ x ∈ st.forwarded, x.timestamp_ns ≤ st.last_imu_timestamp_ns_) :
    ((ImuCallback st s).forwarded.map ImuSample.timestamp_ns).Pairwise (· < ·) ∧
      ∀ x ∈ (ImuCallback st s).forwarded,
        x.timestamp_ns ≤ (ImuCallback st s).last_imu_timestamp_ns_ := by
  unfold ImuCallback
  by_cases h : st.last_imu_timestamp_ns_ < s.timestamp_ns
  · simp only [if_pos h]
    refine ⟨?_, ?_⟩
    · rw [List.map_append]
      refine List.pairwise_append.2 ⟨h1, List.pairwise_singleton _ _, ?_⟩
      intro a ha b hb
      rcases List.mem_map.1 ha with ⟨x, hx, rfl⟩
      rcases List.mem_singleton.1 (by simpa using hb) with rfl
      exact lt_of_le_of_lt (h2 x hx) h
    · intro x hx
      rcases List.mem_append.1 hx with hx | hx
      · exact le_of_lt (lt_of_le_of_lt (h2 x hx) h)
      · rcases List.mem_singleton.1 hx with rfl; exact le_refl _
  · simp only [if_neg h]
    exact ⟨h1, h2⟩

/-- The inertial-ingest invariant holds after any sequence of samples. -/
lemma processImu_inv (fs : List ImuSample) :
    ∀ st : ImuState,
      (st.forwarded.map ImuSample.timestamp_ns).Pairwise (· < ·) →
      (∀ x ∈ st.forwarded, x.timestamp_ns ≤ st.last_imu_timestamp_ns_) →
      ((processImu st fs).forwarded.map ImuSample.timestamp_ns).Pairwise (· < ·) ∧
        ∀ x ∈ (processImu st fs).forwarded,
          x.timestamp_ns ≤ (processImu st fs).last_imu_timestamp_ns_ := by
  induction fs with
  | nil => intro st h1 h2; exact ⟨h1, h2⟩
  | cons s fs ih =>
      intro st h1 h2
      have step := ImuCallback_inv st s h1 h2
      exact ih (ImuCallback st s) step.1 step.2

/-- Every delivered sample is either forwarded or counted as rejected. -/
lemma processImu_count (fs : List ImuSample) :
    ∀ st : ImuState,
      (processImu st fs).forwarded.length + (processImu st fs).rejected =
        st.forwarded.length + st.rejected + fs.length := by
  induction fs with
  | nil => intro st; simp [processImu]
  | cons s fs ih =>
      intro st
      have h := ih (ImuCallback st s)
      have hstep : (ImuCallback st s).forwarded.length + (ImuCallback st s).rejected =
          st.forwarded.length + st.rejected + 1 := by
        unfold ImuCallback
        by_cases hc : st.last_imu_timestamp_ns_ < s.timestamp_ns
        · simp [if_pos hc]; omega
        · simp [if_neg hc]; omega
      have : processImu st (s :: fs) = processImu (ImuCallback st s) fs := rfl
      rw [this, h, hstep]
      simp [List.length_cons]
      omega

/-- The samples forwarded while processing `fs` extend the previously
forwarded list with a subsequence of `fs` (order preserved, nothing
fabricated). -/
lemma processImu_sublist (fs : List ImuSample) :
    ∀ st : ImuState, ∃ d : List ImuSample,
      (processImu st fs).forwarded = st.forwarded ++ d ∧ d.Sublist fs := by
  induction fs with
  | nil => intro st; exact ⟨[], by simp [processImu], List.Sublist.refl _⟩
  | cons s fs ih =>
      intro st
      rcases ih (ImuCallback st s) with ⟨d, hd, hsub⟩
      have hps : processImu st (s :: fs) = processImu (ImuCallback st s) fs := rfl
      by_cases hc : st.last_imu_timestamp_ns_ < s.timestamp_ns
      · refine ⟨s :: d, ?_, List.Sublist.cons₂ s hsub⟩
        rw [hps, hd]
        unfold ImuCallback
        simp [if_pos hc]
      · refine ⟨d, ?_, List.Sublist.cons s hsub⟩
        rw [hps, hd]
        unfold ImuCallback
        simp [if_neg hc]

/-- C1: for every sequence of inertial samples delivered to the IMU
callback, the samples forwarded to the estimator's inertial-ingest entry
point carry strictly increasing timestamps; the forwarded samples are a
subsequence of the delivered ones; every delivered sample is either
forwarded or rejected (and counted); a sample with timestamp strictly
greater than the last accepted one is forwarded and becomes the new
last-accepted timestamp, and a sample with timestamp ≤ the last accepted
one is rejected and never forwarded. -/
theorem imu_ingest_strictly_increasing (fs : List ImuSample) :
    ((processImu initImuState fs).forwarded.map ImuSample.timestamp_ns).Pairwise (· < ·)
    ∧ ((processImu initImuState fs).forwarded).Sublist fs
    ∧ (processImu initImuState fs).forwarded.length +
        (processImu initImuState fs).rejected = fs.length
    ∧ (∀ (st : ImuState) (s : ImuSample),
        st.last_imu_timestamp_ns_ < s.timestamp_ns →
        ImuCallback st s =
          { last_imu_timestamp_ns_ := s.timestamp_ns
            rejected := st.rejected
            forwarded := st.forwarded ++ [s] })
    ∧ (∀ (st : ImuState) (s : ImuSample),
        s.timestamp_ns ≤ st.last_imu_timestamp_ns_ →
        ImuCallback st s = { st with rejected := st.rejected + 1 }) := by
  obtain ⟨d, hd, hsub⟩ := processImu_sublist fs initImuState
  have hinv := processImu_inv fs initImuState (by simp [initImuState])
    (by simp [initImuState])
  refine ⟨hinv.1, ?_, ?_, ?_, ?_⟩
  · rw [hd]
    simpa [initImuState] using hsub
  · have h := processImu_count fs initImuState
    simpa [initImuState] using h
  · intro st s h
    unfold ImuCallback
    simp [if_pos h]
  · intro st s h
    unfold ImuCallback
    simp [if_neg (not_lt.2 h)]

/-- C10: the last-accepted inertial timestamp is initialised to 0 by the
header's member initialiser, so the very first sample after construction is
forwarded exactly when its timestamp is strictly greater than 0; a first
sample with timestamp 0 or negative is rejected (counted, state otherwise
unchanged) even though no sample was previously accepted. -/
theorem imu_first_sample_zero_init :
    initImuState.last_imu_timestamp_ns_ = 0
    ∧ (∀ s : ImuSample, (ImuCallback initImuState s).forwarded =
        if 0 < s.timestamp_ns then [s] else [])
    ∧ (∀ s : ImuSample, s.timestamp_ns ≤ 0 →
        ImuCallback initImuState s =
          { last_imu_timestamp_ns_ := 0, rejected := 1, forwarded := [] })
    ∧ (∀ s : ImuSample, 0 < s.timestamp_ns →
        (ImuCallback initImuState s).forwarded = [s] ∧
        (ImuCallback initImuState s).last_imu_timestamp_ns_ = s.timestamp_ns) := by
  refine ⟨rfl, ?_, ?_, ?_⟩
  · intro s
    unfold ImuCallback initImuState
    by_cases h : (0 : Int) < s.timestamp_ns
    · simp [if_pos h]
    · simp [if_neg h]
  · intro s h
    unfold ImuCallback initImuState
    simp [if_neg (not_lt.2 h)]
  · intro s h
    unfold ImuCallback initImuState
    simp [if_pos h]

/-- After a run of `Push` calls from a buffer within capacity, the buffer
holds the suffix of all frames seen that fits the capacity, and the drop
counter advanced by exactly the overflow. -/
lemma pushAll_spec (capacity : Nat) (hcap : 0 < capacity) :
    ∀ (fs : List CameraImage) (b : FrameBuffer), b.frames.length ≤ capacity →
      (pushAll capacity b fs).frames =
        (b.frames ++ fs).drop (b.frames.length + fs.length - capacity) ∧
      (pushAll capacity b fs).dropped =
        b.dropped + (b.frames.length + fs.length - capacity) := by
  intro fs
  induction fs with
  | nil =>
      intro b hb
      have hz : b.frames.length + ([] : List CameraImage).length - capacity = 0 := by
        simp
        omega
      refine ⟨?_, ?_⟩
      · rw [hz]; simp [pushAll]
      · rw [hz]; simp [pushAll]
  | cons f fs ih =>
      intro b hb
      have hps : pushAll capacity b (f :: fs) =
          pushAll capacity (FrameBuffer.Push capacity b f) fs := rfl
      by_cases hc : capacity ≤ b.frames.length
      · have hlen : b.frames.length = capacity := le_antisymm hb hc
        cases hbf : b.frames with
        | nil => rw [hbf] at hlen; simp at hlen; omega
        | cons a t =>
            have htl : t.length + 1 = capacity := by
              rw [hbf] at hlen; simpa using hlen
            have hPush : FrameBuffer.Push capacity b f =
                { frames := t ++ [f], dropped := b.dropped + 1 } := by
              unfold FrameBuffer.Push
              rw [if_pos hc, hbf]
              rfl
            obtain ⟨h1, h2⟩ := ih { frames := t ++ [f], dropped := b.dropped + 1 }
              (by simp; omega)
            dsimp only at h1 h2
            rw [hps, hPush]
            refine ⟨?_, ?_⟩
            · rw [h1]
              have hidx1 : (t ++ [f]).length + fs.length - capacity = fs.length := by
                simp; omega
              have hidx2 : (a :: t).length + (f :: fs).length - capacity =
                  fs.length + 1 := by
                simp; omega
              rw [hidx1, hidx2, List.cons_append, List.drop_succ_cons,
                List.append_assoc, List.singleton_append]
            · rw [h2]
              have hidx1 : (t ++ [f]).length + fs.length - capacity = fs.length := by
                simp; omega
              have hidx2 : (a :: t).length + (f :: fs).length - capacity =
                  fs.length + 1 := by
                simp; omega
              rw [hidx1, hidx2]
              omega
      · have hblt : b.frames.length < capacity := lt_of_not_ge hc
        have hPush : FrameBuffer.Push capacity b f =
            { frames := b.frames ++ [f], dropped := b.dropped } := by
          unfold FrameBuffer.Push
          rw [if_neg hc]
        obtain ⟨h1, h2⟩ := ih { frames := b.frames ++ [f], dropped := b.dropped }
          (by simp; omega)
        dsimp only at h1 h2
        rw [hps, hPush]
        refine ⟨?_, ?_⟩
        · rw [h1]
          have hidx : (b.frames ++ [f]).length + fs.length - capacity =
              b.frames.length + (f :: fs).length - capacity := by
            simp; omega
          rw [hidx, List.append_assoc, List.singleton_append]
        · rw [h2]
          have hidx : (b.frames ++ [f]).length + fs.length - capacity =
              b.frames.length + (f :: fs).length - capacity := by
            simp; omega
          rw [hidx]

/-- C2: pushing more frames than the buffer's capacity (starting from the
empty buffer) leaves exactly the `capacity` most recently pushed frames, in
FIFO push order, and the dropped-frame counter equals total pushes minus
capacity. -/
theorem camera_buffer_drops_oldest (capacity : Nat) (fs : List CameraImage)
    (hcap : 0 < capacity) (hlen : capacity < fs.length) :
    (pushAll capacity emptyFrameBuffer fs).frames =
      fs.drop (fs.length - capacity)
    ∧ (pushAll capacity emptyFrameBuffer fs).frames.length = capacity
    ∧ (pushAll capacity emptyFrameBuffer fs).dropped = fs.length - capacity := by
  obtain ⟨h1, h2⟩ := pushAll_spec capacity hcap fs emptyFrameBuffer
    (by simp [emptyFrameBuffer])
  have hfr : (pushAll capacity emptyFrameBuffer fs).frames =
      fs.drop (fs.length - capacity) := by
    rw [h1]
    simp [emptyFrameBuffer]
  refine ⟨hfr, ?_, ?_⟩
  · rw [hfr, List.length_drop]
    omega
  · rw [h2]
    simp [emptyFrameBuffer]

/-- A three-frame capture sequence used to instantiate the buffer theorem. -/
def witnessFrames : List CameraImage :=
  [ { frame_id := 1, buffer_size := 4, frame_ts_ns := 10 },
    { frame_id := 2, buffer_size := 4, frame_ts_ns := 20 },
    { frame_id := 3, buffer_size := 4, frame_ts_ns := 30 } ]

/-- C2 witness: the buffer theorem evaluated at capacity 2 and three
concrete frames. -/
theorem camera_buffer_drops_oldest_witness :
    (pushAll 2 emptyFrameBuffer witnessFrames).frames =
      witnessFrames.drop (witnessFrames.length - 2)
    ∧ (pushAll 2 emptyFrameBuffer witnessFrames).frames.length = 2
    ∧ (pushAll 2 emptyFrameBuffer witnessFrames).dropped =
        witnessFrames.length - 2 :=
  camera_buffer_drops_oldest 2 witnessFrames (by decide) (by decide)

/-- Modelled from the spec: the discrete status code set of the public
surface — "success / configuration-error / not-initialized / already-running
/ driver-error / timeout" — plus the already-initialized code the spec names
for a second `Initialize`.  The header only fixes the carrier (`int32_t`,
0 = success, nonzero = failure); the code set itself is the spec's. -/
inductive Status where
  | success
  | configurationError
  | notInitError
  | alreadyInitError
  | alreadyRunning
  | driverError
  | timeout
deriving DecidableEq

/-- The `int32_t` encoding of a status, following the header's documented
convention: 0 = success, any other value = failure. -/
def Status.toInt32 : Status → Int
  | .success => 0
  | .configurationError => 1
  | .notInitError => 2
  | .alreadyInitError => 3
  | .alreadyRunning => 4
  | .driverError => 5
  | .timeout => 6

/-- Every status code, listed once. -/
def statusCodes : List Status :=
  [.success, .configurationError, .notInitError, .alreadyInitError,
   .alreadyRunning, .driverError, .timeout]

/-- Modelled from the spec: the lifecycle states
"Uninitialized → Initialized → Running → Stopped".  The header keeps only
the `std::atomic<bool> initialized_` flag plus the thread and subscription
handles; the four-state machine is the spec's reading of them. -/
inductive LifecycleState where
  | uninit
  | ready
  | running
  | stopped
deriving DecidableEq

/-- The `Snapdragon::VislamManager::InitParams` structure as the header
declares it, with the three-element float arrays as triples and floats read
at fixed precision as integers. -/
structure InitParams where
  tbc : Int × Int × Int
  ombc : Int × Int × Int
  delta : Int
  std0Tbc : Int × Int × Int
  std0Ombc : Int × Int × Int
  std0Delta : Int
  accelMeasRange : Int
  gyroMeasRange : Int
  stdAccelMeasNoise : Int
  stdGyroMeasNoise : Int
  stdCamNoise : Int
  minStdPixelNoise : Int
  failHighPixelNoisePoints : Bool
  logDepthBootstrap : Int
  useLogCameraHeight : Bool
  logCameraHeightBootstrap : Int
  noInitWhenMoving : Bool
  limitedIMUbWtrigger : Int
deriving DecidableEq

/-- Modelled from the spec: the camera configuration handed to
`Initialize`; its concrete type (`SnapdragonCameraTypes.hpp`) is not among
the repository's files, so only a frame geometry is modelled. -/
structure CameraParameters where
  pixel_width : Nat
  pixel_height : Nat
  frame_rate : Nat
deriving DecidableEq

/-- Modelled from the spec: `Initialize` "validates both parameter sets are
internally consistent (e.g., non-negative noise variances)". -/
def validInitParams (p : InitParams) : Bool :=
  (0 ≤ p.stdAccelMeasNoise) && (0 ≤ p.stdGyroMeasNoise) &&
    (0 ≤ p.stdCamNoise) && (0 ≤ p.minStdPixelNoise)

/-- Modelled from the spec: a camera configuration is internally consistent
when it describes a non-empty frame. -/
def validCameraParameters (cp : CameraParameters) : Bool :=
  (0 < cp.pixel_width) && (0 < cp.pixel_height)

/-- The result triple of `GetPose`: the pose (its payload read as one
integer), the frame id and the timestamp of the image it corresponds to,
as in the header's `GetPose(mvVISLAMPose&, int64_t&, uint64_t&)`. -/
structure PoseTriple where
  pose : Int
  frame_id : Int
  timestamp_ns : Int
deriving DecidableEq

attribute [ext] PoseTriple

/-- The whole manager state: the lifecycle position, the stored
configuration (`cam_params_`, `vislam_params_`), the acquisition thread and
IMU subscription handles (`camera_update_thread_`, `imu_sub_`), the
inertial-ingest state, the camera buffer, the estimator's internal filter
state (0 = freshly initialised EKF) and its latest pose result. -/
structure VislamManager where
  state : LifecycleState
  cam_params_ : CameraParameters
  vislam_params_ : InitParams
  threadSpawned : Bool
  imuSubscribed : Bool
  imu : ImuState
  camera_buffer_ : FrameBuffer
  filterState : Nat
  latestPose : Option PoseTriple
deriving DecidableEq

/-- Zeroed `InitParams`, as C++ value-initialisation would leave them. -/
def zeroInitParams : InitParams :=
  { tbc := (0, 0, 0), ombc := (0, 0, 0), delta := 0,
    std0Tbc := (0, 0, 0), std0Ombc := (0, 0, 0), std0Delta := 0,
    accelMeasRange := 0, gyroMeasRange := 0,
    stdAccelMeasNoise := 0, stdGyroMeasNoise := 0,
    stdCamNoise := 0, minStdPixelNoise := 0,
    failHighPixelNoisePoints := false, logDepthBootstrap := 0,
    useLogCameraHeight := false, logCameraHeightBootstrap := 0,
    noInitWhenMoving := false, limitedIMUbWtrigger := 0 }

/-- The manager as the constructor leaves it: nothing initialised, no
thread, no subscription, `last_imu_timestamp_ns_ = 0`, empty buffer. -/
def mkVislamManager : VislamManager :=
  { state := .uninit,
    cam_params_ := { pixel_width := 0, pixel_height := 0, frame_rate := 0 },
    vislam_params_ := zeroInitParams,
    threadSpawned := false,
    imuSubscribed := false,
    imu := initImuState,
    camera_buffer_ := emptyFrameBuffer,
    filterState := 0,
    latestPose := none }

/-- Modelled from the spec: `Initialize(cameraParams, initParams)` "is
valid only from Uninitialized; it constructs the estimator instance with
the given configuration …, validates both parameter sets …, and transitions
to Initialized.  Fails with ConfigurationError if parameters are invalid,
and with AlreadyInitializedError if called twice." -/
def Initialize (m : VislamManager) (cp : CameraParameters) (p : InitParams) :
    Status × VislamManager :=
  if m.state ≠ .uninit then
    (.alreadyInitError, m)
  else if ¬ (validCameraParameters cp && validInitParams p) then
    (.configurationError, m)
  else
    (.success,
      { m with state := .ready, cam_params_ := cp, vislam_params_ := p,
               filterState := 0 })

/-- Modelled from the spec: `Start()` "is valid only from Initialized or
Stopped; it subscribes the Inertial Sample Ingestor to the inertial
transport, launches the Acquisition Loop thread, and transitions to
Running.  Fails with DriverStartError if the camera driver cannot be
started; on partial failure it must roll back any subscription already
made."  `driver_ok` stands for the external camera driver accepting the
start. -/
def Start (m : VislamManager) (driver_ok : Bool) : Status × VislamManager :=
  match m.state with
  | .uninit => (.notInitError, m)
  | .running => (.alreadyRunning, m)
  | _ =>
      if driver_ok then
        (.success,
          { m with state := .running, threadSpawned := true,
                   imuSubscribed := true })
      else
        (.driverError, m)

/-- Modelled from the spec: `Stop()` from Running "unsubscribes from the
inertial transport, signals the Acquisition Loop to exit, joins the thread,
drains the Camera Frame Buffer, and transitions to Stopped"; "Calling
Stop() when not Running is a no-op returning success, idempotently, any
number of times." -/
def Stop (m : VislamManager) : Status × VislamManager :=
  if m.state = .running then
    (.success,
      { m with state := .stopped, threadSpawned := false,
               imuSubscribed := false,
               camera_buffer_ :=
                 { frames := [], dropped := m.camera_buffer_.dropped } })
  else
    (.success, m)

/-- The state-transformer view of `Stop`, used to iterate it. -/
def stopApply (m : VislamManager) : VislamManager :=
  (Stop m).2

/-- Modelled from the spec: `Reset()` "is valid only when not Running; it
re-initializes estimator internal filter state while preserving the
configuration, without tearing down threads." -/
def Reset (m : VislamManager) : Status × VislamManager :=
  if m.state = .running then
    (.alreadyRunning, m)
  else
    (.success, { m with filterState := 0 })

/-- Modelled from the spec: `GetPose` "queries the estimator for its
current pose estimate, frame id, and timestamp; returns a status indicating
whether a valid pose is currently available".  The not-yet-available case
is reported with the timeout code. -/
def GetPose (m : VislamManager) : Status × Option PoseTriple :=
  if m.state = .uninit then
    (.notInitError, none)
  else
    match m.latestPose with
    | some t => (.success, some t)
    | none => (.timeout, none)

/-- Modelled from the spec: the destructor "~VislamManager" — "Destruction
from any state must force an idempotent Stop() before releasing resources":
it runs `Stop` and keeps the stopped state it leaves. -/
def destructVislamManager (m : VislamManager) : VislamManager :=
  stopApply m

/-- C4: calling `Start()` while uninitialised returns the not-initialized
status and performs no side effects — the manager (thread handle,
subscription, everything else) is returned unchanged, whatever the camera
driver would have answered. -/
theorem start_before_init_no_side_effects (m : VislamManager) (d : Bool)
    (h : m.state = .uninit) :
    Start m d = (.notInitError, m)
    ∧ (Start m d).2.threadSpawned = m.threadSpawned
    ∧ (Start m d).2.imuSubscribed = m.imuSubscribed
    ∧ (Start m d).2.state = m.state := by
  have hs : Start m d = (.notInitError, m) := by
    unfold Start
    rw [h]
  exact ⟨hs, by rw [hs], by rw [hs], by rw [hs]⟩

/-- C4 witness: `Start` on the freshly constructed manager. -/
theorem start_before_init_witness :
    Start mkVislamManager true = (.notInitError, mkVislamManager)
    ∧ (Start mkVislamManager true).2.threadSpawned =
        mkVislamManager.threadSpawned
    ∧ (Start mkVislamManager true).2.imuSubscribed =
        mkVislamManager.imuSubscribed
    ∧ (Start mkVislamManager true).2.state = mkVislamManager.state :=
  start_before_init_no_side_effects mkVislamManager true rfl

/-- C5: `Stop()` in any state other than Running is a no-op returning
success; `Stop` always returns success, a second `Stop` changes nothing,
any number of further `Stop` calls stay at that fixed point, and the
destructor is exactly this forced idempotent `Stop`. -/
theorem stop_idempotent (m : VislamManager) :
    (m.state ≠ .running → Stop m = (.success, m))
    ∧ (Stop m).1 = .success
    ∧ Stop (Stop m).2 = (.success, (Stop m).2)
    ∧ (∀ n : Nat, stopApply^[n] (stopApply m) = stopApply m)
    ∧ destructVislamManager m = (Stop m).2 := by
  have hnoop : ∀ m2 : VislamManager, m2.state ≠ .running →
      Stop m2 = (.success, m2) := by
    intro m2 h2
    unfold Stop
    rw [if_neg h2]
  have hnr : (Stop m).2.state ≠ .running := by
    unfold Stop
    by_cases h : m.state = .running
    · rw [if_pos h]
      simp
    · rw [if_neg h]
      exact h
  have hsucc : (Stop m).1 = .success := by
    unfold Stop
    by_cases h : m.state = .running
    · rw [if_pos h]
    · rw [if_neg h]
  have hfix : stopApply (stopApply m) = stopApply m := by
    unfold stopApply
    rw [hnoop _ hnr]
  refine ⟨hnoop m, hsucc, hnoop _ hnr, ?_, rfl⟩
  intro n
  exact Function.iterate_fixed hfix n

/-- C6: `Initialize` from Uninitialized rejects inconsistent parameters
with the configuration-error status (state untouched); with consistent
parameters it succeeds, stores the configuration and moves to Initialized,
and any second `Initialize` fails with the already-initialized status
leaving the stored configuration unchanged. -/
theorem init_validates_and_runs_once (m : VislamManager)
    (cp cp2 : CameraParameters) (p q p2 : InitParams)
    (hm : m.state = .uninit)
    (hq : (validCameraParameters cp && validInitParams q) = false)
    (hp : (validCameraParameters cp && validInitParams p) = true) :
    Initialize m cp q = (.configurationError, m)
    ∧ (Initialize m cp p).1 = .success
    ∧ (Initialize m cp p).2.state = .ready
    ∧ (Initialize m cp p).2.cam_params_ = cp
    ∧ (Initialize m cp p).2.vislam_params_ = p
    ∧ Initialize (Initialize m cp p).2 cp2 p2 =
        (.alreadyInitError, (Initialize m cp p).2) := by
  have hbad : Initialize m cp q = (.configurationError, m) := by
    unfold Initialize
    rw [if_neg (by simp [hm]), if_pos (by simp [hq])]
  have hgood : Initialize m cp p =
      (.success,
        { m with state := .ready, cam_params_ := cp, vislam_params_ := p,
                 filterState := 0 }) := by
    unfold Initialize
    rw [if_neg (by simp [hm]), if_neg (by simp [hp])]
  have hstate : (Initialize m cp p).2.state = .ready := by rw [hgood]
  have hsecond : ∀ m2 : VislamManager, m2.state ≠ .uninit →
      Initialize m2 cp2 p2 = (.alreadyInitError, m2) := by
    intro m2 h2
    unfold Initialize
    rw [if_pos h2]
  have htwice : Initialize (Initialize m cp p).2 cp2 p2 =
      (.alreadyInitError, (Initialize m cp p).2) :=
    hsecond _ (by rw [hstate]; simp)
  exact ⟨hbad, by rw [hgood], hstate, by rw [hgood], by rw [hgood], htwice⟩

/-- A consistent camera configuration for the witnesses. -/
def witnessCamParams : CameraParameters :=
  { pixel_width := 640, pixel_height := 480, frame_rate := 30 }

/-- An inconsistent `InitParams`: a negative camera-noise variance. -/
def witnessBadParams : InitParams :=
  { zeroInitParams with stdCamNoise := -1 }

/-- C6 witness: the initialisation theorem evaluated on the fresh manager
with concrete consistent and inconsistent parameter sets. -/
theorem init_validates_and_runs_once_witness :
    Initialize mkVislamManager witnessCamParams witnessBadParams =
      (.configurationError, mkVislamManager)
    ∧ (Initialize mkVislamManager witnessCamParams zeroInitParams).1 = .success
    ∧ (Initialize mkVislamManager witnessCamParams zeroInitParams).2.state =
        .ready
    ∧ (Initialize mkVislamManager witnessCamParams zeroInitParams).2.cam_params_ =
        witnessCamParams
    ∧ (Initialize mkVislamManager witnessCamParams zeroInitParams).2.vislam_params_ =
        zeroInitParams
    ∧ Initialize (Initialize mkVislamManager witnessCamParams zeroInitParams).2
        witnessCamParams zeroInitParams =
        (.alreadyInitError,
          (Initialize mkVislamManager witnessCamParams zeroInitParams).2) :=
  init_validates_and_runs_once mkVislamManager witnessCamParams witnessCamParams
    zeroInitParams witnessBadParams zeroInitParams (by decide) (by decide)
    (by decide)

/-- C7: `Reset()` fails (leaving the manager untouched) exactly in the
Running state; otherwise it succeeds, re-initialises the estimator's
internal filter state, and preserves the stored camera and VISLAM
configuration, the thread handle, the subscription and the lifecycle
position. -/
theorem reset_preserves_config (m : VislamManager) :
    (m.state = .running → Reset m = (.alreadyRunning, m))
    ∧ (m.state ≠ .running →
        (Reset m).1 = .success
        ∧ (Reset m).2.filterState = 0
        ∧ (Reset m).2.cam_params_ = m.cam_params_
        ∧ (Reset m).2.vislam_params_ = m.vislam_params_
        ∧ (Reset m).2.threadSpawned = m.threadSpawned
        ∧ (Reset m).2.imuSubscribed = m.imuSubscribed
        ∧ (Reset m).2.state = m.state) := by
  constructor
  · intro h
    unfold Reset
    rw [if_pos h]
  · intro h
    unfold Reset
    rw [if_neg h]
    exact ⟨rfl, rfl, rfl, rfl, rfl, rfl, rfl⟩

/-- One estimated 3-D landmark point (`mvVISLAMMapPoint`, payload read as
integer coordinates). -/
structure MapPoint where
  x : Int
  y : Int
  z : Int
deriving DecidableEq

/-- Modelled from the spec: `GetPointCloud(points, maxPoints)` "copies up
to maxPoints landmark points into caller storage and returns the count
written (0 if none available); never allocates on behalf of the caller".
`avail` is the estimator's current landmark set, `points` the
caller-supplied storage; the result is the storage after the copy and the
count written. -/
def GetPointCloud (avail points : List MapPoint) (max_points : Nat) :
    List MapPoint × Nat :=
  let written := avail.take max_points
  (written ++ points.drop written.length, written.length)

/-- C8: `GetPointCloud` writes at most `max_points` points, returns exactly
the count written (0 when none are available), the written prefix is the
copied landmark data, the rest of the caller's storage is untouched, and —
no allocation — the storage never grows beyond its own length when it can
hold the copy. -/
theorem point_cloud_caps_and_counts (avail points : List MapPoint)
    (max_points : Nat) :
    (GetPointCloud avail points max_points).2 = min max_points avail.length
    ∧ (GetPointCloud avail points max_points).2 ≤ max_points
    ∧ (avail = [] → (GetPointCloud avail points max_points).2 = 0)
    ∧ (GetPointCloud avail points max_points).1.take
        (GetPointCloud avail points max_points).2 = avail.take max_points
    ∧ (GetPointCloud avail points max_points).1.drop
        (GetPointCloud avail points max_points).2 =
        points.drop (GetPointCloud avail points max_points).2
    ∧ ((GetPointCloud avail points max_points).2 ≤ points.length →
        (GetPointCloud avail points max_points).1.length = points.length) := by
  have hcount : (GetPointCloud avail points max_points).2 =
      (avail.take max_points).length := rfl
  have hfst : (GetPointCloud avail points max_points).1 =
      avail.take max_points ++ points.drop (avail.take max_points).length := rfl
  refine ⟨?_, ?_, ?_, ?_, ?_, ?_⟩
  · rw [hcount, List.length_take]
  · rw [hcount, List.length_take]
    exact Nat.min_le_left _ _
  · intro h
    rw [hcount, h]
    simp
  · rw [hcount, hfst, List.take_left]
  · rw [hcount, hfst, List.drop_left]
  · intro h
    rw [hcount] at h
    rw [hfst, List.length_append, List.length_drop]
    omega

/-- C9: every status-returning public operation yields a value of the
small discrete status set `statusCodes`; the set distinguishes its codes
(the `int32_t` encodings are pairwise distinct), success is encoded as 0
and every failure code is nonzero — not an undifferentiated
success/failure pair. -/
theorem status_codes_discrete (m : VislamManager) (cp : CameraParameters)
    (p : InitParams) (d : Bool) :
    (statusCodes.map Status.toInt32).Nodup
    ∧ (∀ st : Status, st ∈ statusCodes)
    ∧ Status.toInt32 .success = 0
    ∧ (∀ st : Status, st ≠ .success → st.toInt32 ≠ 0)
    ∧ (Initialize m cp p).1 ∈ statusCodes
    ∧ (Start m d).1 ∈ statusCodes
    ∧ (Stop m).1 ∈ statusCodes
    ∧ (Reset m).1 ∈ statusCodes
    ∧ (GetPose m).1 ∈ statusCodes := by
  have hall : ∀ st : Status, st ∈ statusCodes := by
    intro st
    cases st <;> simp [statusCodes]
  refine ⟨by decide, hall, rfl, ?_, hall _, hall _, hall _, hall _, hall _⟩
  intro st h
  cases st <;> first | exact absurd rfl h | decide

/-- Modelled from the spec: the shared estimator result cell and the
`sync_mutex_` serialising "estimator mutation or read".  `mem` is the
estimator's (pose, frame id, timestamp) snapshot; the writer (the
Acquisition Loop's ingest of call number `wcall`, writing the three fields
one at a time inside its critical section, `wphase` 1–4) and the reader
(`GetPose`, holding the mutex while `reading`) both go through the one
mutex; `rval` is the last triple `GetPose` returned. -/
structure SyncState where
  mem : PoseTriple
  wcall : Nat
  wphase : Nat
  reading : Bool
  rval : Option PoseTriple
deriving DecidableEq

/-- The initial shared state: the bootstrap triple of ingest call 0 in
memory, mutex free, nothing read yet. -/
def initSyncState (f : Nat → PoseTriple) : SyncState :=
  { mem := f 0, wcall := 0, wphase := 0, reading := false, rval := none }

/-- Modelled from the spec: one interleaving step of the Acquisition Loop's
ingest (writer) and `GetPose` (reader) over the mutex-guarded estimator
cell.  `f i` is the triple ingest call `i` stores; acquiring requires the
mutex free (writer not in phases 1–4, reader not holding), each field write
requires the writer to hold the mutex, and a read requires the reader to
hold it. -/
inductive SyncStep (f : Nat → PoseTriple) : SyncState → SyncState → Prop where
  | writerAcquire (s : SyncState) (h1 : s.wphase = 0) (h2 : s.reading = false) :
      SyncStep f s { s with wphase := 1 }
  | writePose (s : SyncState) (h : s.wphase = 1) :
      SyncStep f s
        { s with mem := { s.mem with pose := (f s.wcall).pose }, wphase := 2 }
  | writeFrameId (s : SyncState) (h : s.wphase = 2) :
      SyncStep f s
        { s with mem := { s.mem with frame_id := (f s.wcall).frame_id },
                 wphase := 3 }
  | writeTimestamp (s : SyncState) (h : s.wphase = 3) :
      SyncStep f s
        { s with mem := { s.mem with timestamp_ns := (f s.wcall).timestamp_ns },
                 wphase := 4 }
  | writerRelease (s : SyncState) (h : s.wphase = 4) :
      SyncStep f s { s with wphase := 0, wcall := s.wcall + 1 }
  | readerAcquire (s : SyncState) (h1 : s.wphase = 0) (h2 : s.reading = false) :
      SyncStep f s { s with reading := true }
  | readerRead (s : SyncState) (h : s.reading = true) :
      SyncStep f s { s with rval := some s.mem }
  | readerRelease (s : SyncState) (h : s.reading = true) :
      SyncStep f s { s with reading := false }

/-- The states reachable by interleaving writer and reader steps from the
initial shared state. -/
def SyncReachable (f : Nat → PoseTriple) (s : SyncState) : Prop :=
  Relation.ReflTransGen (SyncStep f) (initSyncState f) s

/-- The mutual-exclusion and consistency invariant: the reader holds the
mutex only while the writer is out of its critical section; outside the
writer's critical section the snapshot is some single ingest call's triple;
inside it the already-written fields agree with the call being written; and
everything `GetPose` ever returned is a single call's triple. -/
def SyncInv (f : Nat → PoseTriple) (s : SyncState) : Prop :=
  (s.reading = true → s.wphase = 0)
  ∧ (s.wphase = 0 → ∃ i, s.mem = f i)
  ∧ (s.wphase = 2 → s.mem.pose = (f s.wcall).pose)
  ∧ (s.wphase = 3 →
      s.mem.pose = (f s.wcall).pose ∧ s.mem.frame_id = (f s.wcall).frame_id)
  ∧ (s.wphase = 4 → s.mem = f s.wcall)
  ∧ (∀ t, s.rval = some t → ∃ i, t = f i)

/-- Each interleaving step preserves the consistency invariant. -/
lemma syncStep_inv (f : Nat → PoseTriple) (s s2 : SyncState)
    (hstep : SyncStep f s s2) (hinv : SyncInv f s) : SyncInv f s2 := by
  obtain ⟨hrw, h0, h2, h3, h4, hr⟩ := hinv
  cases hstep with
  | writerAcquire h1 hrd =>
      refine ⟨?_, ?_, ?_, ?_, ?_, ?_⟩ <;> dsimp only
      · intro hp; rw [hrd] at hp; cases hp
      · intro hp; cases hp
      · intro hp; cases hp
      · intro hp; cases hp
      · intro hp; cases hp
      · exact hr
  | writePose h =>
      refine ⟨?_, ?_, ?_, ?_, ?_, ?_⟩ <;> dsimp only
      · intro hread
        rw [h] at hrw
        exact absurd (hrw hread) (by decide)
      · intro hp; cases hp
      · intro _; rfl
      · intro hp; cases hp
      · intro hp; cases hp
      · exact hr
  | writeFrameId h =>
      refine ⟨?_, ?_, ?_, ?_, ?_, ?_⟩ <;> dsimp only
      · intro hread
        rw [h] at hrw
        exact absurd (hrw hread) (by decide)
      · intro hp; cases hp
      · intro hp; cases hp
      · intro _; exact ⟨h2 h, rfl⟩
      · intro hp; cases hp
      · exact hr
  | writeTimestamp h =>
      refine ⟨?_, ?_, ?_, ?_, ?_, ?_⟩ <;> dsimp only
      · intro hread
        rw [h] at hrw
        exact absurd (hrw hread) (by decide)
      · intro hp; cases hp
      · intro hp; cases hp
      · intro hp; cases hp
      · intro _
        obtain ⟨hp, hfid⟩ := h3 h
        exact PoseTriple.ext hp hfid rfl
      · exact hr
  | writerRelease h =>
      refine ⟨?_, ?_, ?_, ?_, ?_, ?_⟩ <;> dsimp only
      · intro _; rfl
      · intro _; exact ⟨_, h4 h⟩
      · intro hp; cases hp
      · intro hp; cases hp
      · intro hp; cases hp
      · exact hr
  | readerAcquire h1 hrd =>
      refine ⟨?_, ?_, ?_, ?_, ?_, ?_⟩ <;> dsimp only
      · intro _; exact h1
      · exact h0
      · exact h2
      · exact h3
      · exact h4
      · exact hr
  | readerRead h =>
      refine ⟨?_, ?_, ?_, ?_, ?_, ?_⟩ <;> dsimp only
      · exact hrw
      · exact h0
      · exact h2
      · exact h3
      · exact h4
      · intro t ht
        injection ht with hv
        rcases h0 (hrw h) with ⟨i, hi⟩
        exact ⟨i, by rw [← hv]; exact hi⟩
  | readerRelease h =>
      refine ⟨?_, ?_, ?_, ?_, ?_, ?_⟩ <;> dsimp only
      · intro hp; cases hp
      · exact h0
      · exact h2
      · exact h3
      · exact h4
      · exact hr

/-- The invariant holds in every reachable shared state. -/
lemma syncReachable_inv (f : Nat → PoseTriple) (s : SyncState)
    (h : SyncReachable f s) : SyncInv f s := by
  induction h with
  | refl =>
      refine ⟨?_, ?_, ?_, ?_, ?_, ?_⟩
      · intro hp; cases hp
      · intro _; exact ⟨0, rfl⟩
      · intro hp; cases hp
      · intro hp; cases hp
      · intro hp; cases hp
      · intro t ht; cases ht
  | tail hsteps hstep ih =>
      exact syncStep_inv f _ _ hstep ih

/-- C3: in every interleaving of `GetPose` with concurrent frame ingestion
serialised by the one `sync_mutex_`, any triple `GetPose` returns is the
(pose, frame id, timestamp) of one single ingest call — never a mix of
fields from two different ingest calls. -/
theorem get_pose_not_torn (f : Nat → PoseTriple) (s : SyncState)
    (h : SyncReachable f s) :
    ∀ t : PoseTriple, s.rval = some t → ∃ i, t = f i :=
  (syncReachable_inv f s h).2.2.2.2.2

/-- A concrete ingest family (call `i` carries `i` in all three fields),
used to instantiate the no-tearing theorem. -/
def wfIngest : Nat → PoseTriple :=
  fun i => { pose := (i : Int), frame_id := (i : Int), timestamp_ns := (i : Int) }

/-- C3 witness: a concrete two-step interleaving (reader acquires the
mutex, then reads) from the initial state, run through the no-tearing
theorem. -/
theorem get_pose_not_torn_witness :
    ∃ i : Nat, wfIngest 0 = wfIngest i := by
  have h1 : SyncStep wfIngest (initSyncState wfIngest)
      { mem := wfIngest 0, wcall := 0, wphase := 0, reading := true,
        rval := none } :=
    SyncStep.readerAcquire (initSyncState wfIngest) rfl rfl
  have h2 : SyncStep wfIngest
      { mem := wfIngest 0, wcall := 0, wphase := 0, reading := true,
        rval := none }
      { mem := wfIngest 0, wcall := 0, wphase := 0, reading := true,
        rval := some (wfIngest 0) } :=
    SyncStep.readerRead _ rfl
  have hreach : SyncReachable wfIngest
      { mem := wfIngest 0, wcall := 0, wphase := 0, reading := true,
        rval := some (wfIngest 0) } :=
    Relation.ReflTransGen.tail
      (Relation.ReflTransGen.tail Relation.ReflTransGen.refl h1) h2
  exact get_pose_not_torn wfIngest _ hreach (wfIngest 0) rfl

end Snapdragon
